import Mathlib

/-!
Verification of the VirtualBox shared-folders directory layer
(`fs/vboxsf/dirops.c`): the directory-listing cache, the enumeration
driver, and the mutation operations' invalidation flags.

The C code is shallowly embedded: each C function becomes a Lean
function over explicit state, with the remote transport (the host side)
supplied as an oracle recording which calls the code issues.  Helper
routines that live in `utils.c` (not part of the sources examined:
`sf_dir_read_all`, `sf_dir_info_*`, `sf_nlscpy`) are modelled from the
specification's description of them, and are marked as such.
-/

namespace VBoxSF

/-! ### Protocol and platform constants

The SHFL_* values come from the VirtualBox shared-folders protocol
header (an external interface of this code, not among the sources);
the DT_* and S_IF* values are the standard Linux ones. -/

def SHFL_HANDLE_NIL : Nat := 2 ^ 64 - 1

def SHFL_FILE_EXISTS : Nat := 1
def SHFL_FILE_CREATED : Nat := 2
def SHFL_FILE_NOT_FOUND : Nat := 4

def SHFL_TYPE_MASK : Nat := 0x000F0000
def SHFL_TYPE_FIFO : Nat := 0x00010000
def SHFL_TYPE_DEV_CHAR : Nat := 0x00020000
def SHFL_TYPE_DIRECTORY : Nat := 0x00040000
def SHFL_TYPE_DEV_BLOCK : Nat := 0x00060000
def SHFL_TYPE_FILE : Nat := 0x00080000
def SHFL_TYPE_SYMLINK : Nat := 0x000A0000
def SHFL_TYPE_SOCKET : Nat := 0x000C0000
def SHFL_TYPE_WHITEOUT : Nat := 0x000E0000

def SHFL_RENAME_FILE : Nat := 0x1
def SHFL_RENAME_REPLACE_IF_EXISTS : Nat := 0x4

def SHFL_REMOVE_DIR : Nat := 0x1
def SHFL_REMOVE_FILE : Nat := 0x2
def SHFL_REMOVE_SYMLINK : Nat := 0x4

def DT_UNKNOWN : Nat := 0
def DT_FIFO : Nat := 1
def DT_CHR : Nat := 2
def DT_DIR : Nat := 4
def DT_BLK : Nat := 6
def DT_REG : Nat := 8
def DT_LNK : Nat := 10
def DT_SOCK : Nat := 12
def DT_WHT : Nat := 14

def S_IFMT : Nat := 0xF000
def S_IFDIR : Nat := 0x4000
def S_IFLNK : Nat := 0xA000
def S_IFSOCK : Nat := 0xC000

def EPERM : Int := 1
def ENOENT : Int := 2
def Eio : Int := 5
def ENOMEM : Int := 12
def EINVAL : Int := 22

/-! ### Data model -/

/-- One remote directory entry (`struct shfl_dirinfo`): the host name,
the attribute mode word, and — modelled from the spec, since the
encoding conversion `sf_nlscpy` lives outside the examined sources —
whether the name converts to the local encoding (`decodable`). -/
structure DirEntry where
  name : String
  decodable : Bool
  mode : Nat
  deriving Repr, DecidableEq, Inhabited

/-- The directory-listing cache (`struct sf_dir_info`): an ordered
sequence of chunks (`struct sf_dir_buf`), each an ordered list of
entries; `b->entries` is the chunk's length. -/
def SfDirInfo := List (List DirEntry)
  deriving Repr, DecidableEq, Inhabited

/-- Per-inode state (`struct sf_inode_info`): the remote path and the
two dirty flags. -/
structure SfInodeInfo where
  path : String
  force_restat : Bool
  force_reread : Bool
  deriving Repr, DecidableEq, Inhabited

/-- Response the transport gives to a `vboxsf_create` call
(`struct shfl_createparms` out-fields plus the call's return code). -/
structure CreateResp where
  err : Int
  result : Nat
  handle : Nat
  deriving Repr, DecidableEq, Inhabited

/-- A transport (or allocation) event issued by the embedded code, in
program order.  `createCall` records the response the oracle supplied,
so that a trace determines which handles were acquired. -/
inductive Event where
  | allocDirInfo : Event
  | createCall : CreateResp → Event
  | closeCall : Nat → Event
  | readChunkCall : Event
  | renameCall : String → String → Nat → Event
  | removeCall : String → Nat → Event
  | symlinkCall : Event
  deriving Repr, DecidableEq

/-- Handles acquired during a trace: each successful `vboxsf_create`
whose returned handle is not `SHFL_HANDLE_NIL`. -/
def acquiredHandles (tr : List Event) : List Nat :=
  tr.filterMap fun e =>
    match e with
    | .createCall c => if c.err = 0 ∧ c.handle ≠ SHFL_HANDLE_NIL then some c.handle else none
    | _ => none

/-- Handles passed to `vboxsf_close` during a trace. -/
def closedHandles (tr : List Event) : List Nat :=
  tr.filterMap fun e =>
    match e with
    | .closeCall h => some h
    | _ => none

/-! ### `sf_get_d_type` (dirops.c:79) -/

/-- Translate an RTFMODE attribute word into a DT_xxx value
(`sf_get_d_type`). -/
def sf_get_d_type (mode : Nat) : Nat :=
  let t := mode &&& SHFL_TYPE_MASK
  if t = SHFL_TYPE_FIFO then DT_FIFO
  else if t = SHFL_TYPE_DEV_CHAR then DT_CHR
  else if t = SHFL_TYPE_DIRECTORY then DT_DIR
  else if t = SHFL_TYPE_DEV_BLOCK then DT_BLK
  else if t = SHFL_TYPE_FILE then DT_REG
  else if t = SHFL_TYPE_SYMLINK then DT_LNK
  else if t = SHFL_TYPE_SOCKET then DT_SOCK
  else if t = SHFL_TYPE_WHITEOUT then DT_WHT
  else DT_UNKNOWN

/-! ### `sf_dir_read_all` (utils.c, modelled from the spec) -/

/-- Modelled from the spec: `sf_dir_read_all` (in `utils.c`, which is
not among the examined sources) loops over `read_dir_chunk` transport
calls, appending each non-empty result as a chunk until a call returns
count 0 ("no more entries"); on any read failure it releases all
previously-accumulated chunks and returns the error, so no partial
cache is ever exposed.  The oracle `reads` lists the successive
transport responses. -/
def sf_dir_read_all : List (Except Int (List DirEntry)) → Int × SfDirInfo × List Event
  | [] => (0, [], [])
  | r :: rs =>
    match r with
    | .error e => (e, [], [.readChunkCall])
    | .ok chunk =>
      if chunk = [] then (0, [], [.readChunkCall])
      else
        let rest := sf_dir_read_all rs
        if rest.1 ≠ 0 then (rest.1, [], .readChunkCall :: rest.2.2)
        else (0, chunk :: rest.2.1, .readChunkCall :: rest.2.2)

/-! ### The chunk walk of `sf_getdent` (dirops.c:162-189) -/

/-- The buffer walk of `sf_getdent`: skip whole chunks while
`f_pos >= cur + b->entries`, then index `f_pos - cur` within the
owning chunk. -/
def sf_entry_at : List (List DirEntry) → Nat → Option DirEntry
  | [], _ => none
  | b :: bs, pos => if h : pos < b.length then some (b.get ⟨pos, h⟩) else sf_entry_at bs (pos - b.length)

/-! ### `sf_getdent` (dirops.c:120) -/

/-- Result of one `sf_getdent` call: an extracted entry (return 0 with
`d_name`/`d_type` filled in), end of listing (return 1), or a negative
error. -/
inductive Gres where
  | entry : String → Nat → Gres
  | endOfDir : Gres
  | error : Int → Gres
  deriving Repr, DecidableEq

/-- Oracle for the refetch path of `sf_getdent`: the response to its
`vboxsf_create` call and the chunk reads `sf_dir_read_all` would see. -/
structure RefetchOracle where
  create : CreateResp
  reads : List (Except Int (List DirEntry))
  deriving Repr

/-- State touched by `sf_getdent`: the session cursor `dir->f_pos`, the
parent inode record, and `dir->private_data` (`none` once the listing
has been freed). -/
structure GetdentIn where
  f_pos : Nat
  sf_i : SfInodeInfo
  sf_d : Option SfDirInfo
  deriving Repr, DecidableEq

structure GetdentOut where
  res : Gres
  sf_i : SfInodeInfo
  sf_d : Option SfDirInfo
  trace : List Event
  deriving Repr, DecidableEq

/-- The walk-and-extract tail of `sf_getdent`: look up `f_pos` in the
chunk sequence; past the end return 1; otherwise fill in `d_type` and
convert the name (`sf_nlscpy`, which fails on an undecodable name). -/
def sf_getdent_walk (chunks : SfDirInfo) (f_pos : Nat) : Gres :=
  match sf_entry_at chunks f_pos with
  | none => .endOfDir
  | some e => if e.decodable then .entry e.name (sf_get_d_type e.mode) else .error (-EINVAL)

/-- `sf_getdent` (dirops.c:120): if `force_reread` is set, reopen the
directory, empty the cache, re-read it whole and close the handle,
clearing the flag only on success; then serve the entry at `f_pos`
from the (possibly refreshed) chunk sequence.  `sf_d = none` models a
freed `private_data`, which the C code would dereference; we return a
fault marker instead. -/
def sf_getdent (o : RefetchOracle) (inp : GetdentIn) : GetdentOut :=
  match inp.sf_d with
  | none => ⟨.error (-EINVAL), inp.sf_i, none, []⟩
  | some d =>
    if inp.sf_i.force_reread then
      let c := o.create
      if c.err ≠ 0 then
        ⟨.error c.err, inp.sf_i, some d, [.createCall c]⟩
      else if c.result ≠ SHFL_FILE_EXISTS then
        ⟨.error (-ENOENT), inp.sf_i, none, [.createCall c]⟩
      else
        let ra := sf_dir_read_all o.reads
        let tr := .createCall c :: ra.2.2 ++ [.closeCall c.handle]
        if ra.1 ≠ 0 then
          ⟨.error ra.1, inp.sf_i, some ra.2.1, tr⟩
        else
          ⟨sf_getdent_walk ra.2.1 inp.f_pos,
           { inp.sf_i with force_reread := false }, some ra.2.1, tr⟩
    else
      ⟨sf_getdent_walk d inp.f_pos, inp.sf_i, some d, []⟩

/-! ### `sf_dir_iterate` (dirops.c:215) -/

/-- The VFS iteration context: the caller's cursor `ctx->pos`, plus —
modelled from the spec — the accept callback's state: `budget` slots
remaining in the caller's output buffer and the list of entries
accepted so far as `(name, inode-number, d_type)` triples. -/
structure Ctx where
  pos : Nat
  budget : Nat
  emitted : List (String × Nat × Nat)
  deriving Repr, DecidableEq

/-- Modelled from the spec: the generic `dir_emit` accept callback
(part of the VFS, an external collaborator).  It accepts the entry and
returns true while the caller's buffer has room, and signals "stop"
(returns false) once the buffer is full. -/
def dir_emit (ctx : Ctx) (name : String) (ino : Nat) (d_type : Nat) : Bool × Ctx :=
  if ctx.budget = 0 then (false, ctx)
  else (true, ⟨ctx.pos, ctx.budget - 1, ctx.emitted ++ [(name, ino, d_type)]⟩)

/-- State threaded through the `sf_dir_iterate` loop. -/
structure IterSt where
  f_pos : Nat
  ctx : Ctx
  sf_i : SfInodeInfo
  sf_d : Option SfDirInfo
  deriving Repr, DecidableEq

/-- Outcome of one pass through the `for (;;)` body: `ret e` for a
`return e`, `next` for falling through / `continue` to the next
iteration. -/
inductive StepOut where
  | ret : Int → IterSt → StepOut
  | next : IterSt → StepOut
  deriving Repr, DecidableEq

/-- One pass through the loop body of `sf_dir_iterate` (dirops.c:217-256).
`w` is the bit width of the platform's `ino_t`; narrowing a value to
`ino_t` is reduction mod `2 ^ w`. -/
def sf_dir_iterate_body (w : Nat) (o : RefetchOracle) (st : IterSt) : StepOut :=
  let g := sf_getdent o ⟨st.f_pos, st.sf_i, st.sf_d⟩
  let st1 : IterSt := ⟨st.f_pos, st.ctx, g.sf_i, g.sf_d⟩
  match g.res with
  | .endOfDir => .ret 0 st1
  | .error _ =>
    -- "skip erroneous entry and proceed"
    .next ⟨st1.f_pos + 1, ⟨st1.ctx.pos + 1, st1.ctx.budget, st1.ctx.emitted⟩, st1.sf_i, st1.sf_d⟩
  | .entry name d_type =>
    let sanity : Nat := st1.ctx.pos + 0xbeef
    let fake_ino : Nat := sanity % 2 ^ w
    if sanity - fake_ino ≠ 0 then .ret (-EINVAL) st1
    else
      let em := dir_emit st1.ctx name fake_ino d_type
      if em.1 = false then .ret 0 ⟨st1.f_pos, em.2, st1.sf_i, st1.sf_d⟩
      else .next ⟨st1.f_pos + 1, ⟨em.2.pos + 1, em.2.budget, em.2.emitted⟩, st1.sf_i, st1.sf_d⟩

/-- `sf_dir_iterate` (dirops.c:215): run the loop body until it
returns.  The C loop is unbounded; `fuel` bounds the embedding, and
`none` means the loop was still running when the fuel ran out. -/
def sf_dir_iterate (w : Nat) (o : RefetchOracle) : Nat → IterSt → Option (Int × IterSt)
  | 0, _ => none
  | fuel + 1, st =>
    match sf_dir_iterate_body w o st with
    | .ret e st1 => some (e, st1)
    | .next st1 => sf_dir_iterate w o fuel st1

/-- Modelled from the spec: the generic layer's read-directory loop.
Each element of `budgets` is one `iterate` call made with a fresh
output buffer of that capacity; the VFS passes `ctx->pos = f_pos` into
each call and stores the final `ctx` cursor back.  Returns the
concatenation of the entries accepted by the successive calls and the
final session state. -/
def sf_enumerate (w : Nat) (o : RefetchOracle) (fuel : Nat) :
    List Nat → Nat × SfInodeInfo × Option SfDirInfo →
    Option (List (String × Nat × Nat) × (Nat × SfInodeInfo × Option SfDirInfo))
  | [], s => some ([], s)
  | b :: bs, (p, si, sd) =>
    match sf_dir_iterate w o fuel ⟨p, ⟨p, b, []⟩, si, sd⟩ with
    | none => none
    | some (_, st1) =>
      match sf_enumerate w o fuel bs (st1.f_pos, st1.sf_i, st1.sf_d) with
      | none => none
      | some (acc, s2) => some (st1.ctx.emitted ++ acc, s2)

/-! ### `sf_dir_open` (dirops.c:18) -/

structure DirOpenOut where
  err : Int
  private_data : Option SfDirInfo
  trace : List Event
  deriving Repr, DecidableEq

/-- `sf_dir_open` (dirops.c:18): if the file already has an open
listing, return immediately; otherwise allocate a cache, open the
remote directory read-only, read the complete content, close the
remote handle, and free the cache again on any failure.  `allocOK`
models whether `sf_dir_info_alloc` succeeds; `o` supplies the
transport's responses. -/
def sf_dir_open (allocOK : Bool) (o : RefetchOracle) (privData : Option SfDirInfo) : DirOpenOut :=
  match privData with
  | some d => ⟨0, some d, []⟩
  | none =>
    if !allocOK then ⟨-ENOMEM, none, [.allocDirInfo]⟩
    else
      let c := o.create
      if c.err = 0 then
        if c.result = SHFL_FILE_EXISTS then
          let ra := sf_dir_read_all o.reads
          let tr := .allocDirInfo :: .createCall c :: ra.2.2 ++ [.closeCall c.handle]
          if ra.1 = 0 then ⟨0, some ra.2.1, tr⟩
          else ⟨ra.1, none, tr⟩
        else ⟨-ENOENT, none, [.allocDirInfo, .createCall c, .closeCall c.handle]⟩
      else ⟨c.err, none, [.allocDirInfo, .createCall c]⟩

/-! ### `sf_create_aux` (dirops.c:373) -/

/-- Oracle for `sf_create_aux`: the result of `sf_path_from_dentry`
(which only allocates, no transport), the transport's response to the
create call, and the result of `sf_instantiate` (local allocation). -/
structure CreateAuxOracle where
  pathRes : Except Int String
  create : CreateResp
  instErr : Int
  deriving Repr

/-- `sf_create_aux` (dirops.c:373), shared by `sf_create` and
`sf_mkdir`: build the path, issue the create call, require the
`SHFL_FILE_CREATED` result, instantiate the local object, close the
handle only for directories (regular files keep it for `sf_reg_open`),
and mark the parent `force_restat`. -/
def sf_create_aux (o : CreateAuxOracle) (fDirectory : Bool) (sf_i : SfInodeInfo) :
    Int × SfInodeInfo × List Event :=
  match o.pathRes with
  | .error e => (e, sf_i, [])
  | .ok _path =>
    let c := o.create
    if c.err ≠ 0 then (c.err, sf_i, [.createCall c])
    else if c.result ≠ SHFL_FILE_CREATED then (-EPERM, sf_i, [.createCall c])
    else if o.instErr ≠ 0 then (o.instErr, sf_i, [.createCall c, .closeCall c.handle])
    else if fDirectory then
      (0, { sf_i with force_restat := true }, [.createCall c, .closeCall c.handle])
    else
      (0, { sf_i with force_restat := true }, [.createCall c])

/-- `sf_create` (dirops.c:438). -/
def sf_create (o : CreateAuxOracle) (sf_i : SfInodeInfo) : Int × SfInodeInfo × List Event :=
  sf_create_aux o false sf_i

/-- `sf_mkdir` (dirops.c:452). -/
def sf_mkdir (o : CreateAuxOracle) (sf_i : SfInodeInfo) : Int × SfInodeInfo × List Event :=
  sf_create_aux o true sf_i

/-! ### `sf_unlink_aux` (dirops.c:465) -/

structure UnlinkOracle where
  pathRes : Except Int String
  removeErr : Int
  deriving Repr

/-- `sf_unlink_aux` (dirops.c:465), shared by `sf_unlink` and
`sf_rmdir`.  `dmode` is `dentry->d_inode->i_mode` when the dentry and
its inode are present.  On success both parent flags are set:
"directory access/change time changed" (`force_restat`) and
"directory content changed" (`force_reread`). -/
def sf_unlink_aux (o : UnlinkOracle) (fDirectory : Bool) (dmode : Option Nat)
    (sf_i : SfInodeInfo) : Int × SfInodeInfo × List Event :=
  match o.pathRes with
  | .error e => (e, sf_i, [])
  | .ok path =>
    let flags0 := if fDirectory then SHFL_REMOVE_DIR else SHFL_REMOVE_FILE
    let flags :=
      match dmode with
      | some m => if m &&& S_IFLNK = S_IFLNK then flags0 ||| SHFL_REMOVE_SYMLINK else flags0
      | none => flags0
    if o.removeErr ≠ 0 then (o.removeErr, sf_i, [.removeCall path flags])
    else (0, { sf_i with force_restat := true, force_reread := true },
          [.removeCall path flags])

/-! ### `sf_rename` (dirops.c:532) -/

structure RenameIn where
  flags : Nat
  old_glob : Nat
  new_glob : Nat
  old_mode : Nat
  sf_old_i : SfInodeInfo
  sf_new_i : SfInodeInfo
  file_path : String
  deriving Repr, DecidableEq

structure RenameOracle where
  pathRes : Except Int String
  renameErr : Int
  deriving Repr

structure RenameOut where
  err : Int
  sf_old_i : SfInodeInfo
  sf_new_i : SfInodeInfo
  file_path : String
  trace : List Event
  deriving Repr, DecidableEq

/-- `sf_rename` (dirops.c:532): reject nonzero generic flags, then a
cross-share rename, before building the new path; request the remote
rename with `SHFL_RENAME_FILE | SHFL_RENAME_REPLACE_IF_EXISTS` unless
the source inode's mode has the `S_IFDIR` bit, in which case flags 0;
on success adopt the new path and mark both parents `force_restat`. -/
def sf_rename (o : RenameOracle) (inp : RenameIn) : RenameOut :=
  if inp.flags ≠ 0 then ⟨-EINVAL, inp.sf_old_i, inp.sf_new_i, inp.file_path, []⟩
  else if inp.old_glob ≠ inp.new_glob then ⟨-EINVAL, inp.sf_old_i, inp.sf_new_i, inp.file_path, []⟩
  else
    match o.pathRes with
    | .error e => ⟨e, inp.sf_old_i, inp.sf_new_i, inp.file_path, []⟩
    | .ok path =>
      let shfl_flags :=
        if inp.old_mode &&& S_IFDIR ≠ 0 then 0
        else SHFL_RENAME_FILE ||| SHFL_RENAME_REPLACE_IF_EXISTS
      let tr := [Event.renameCall inp.file_path path shfl_flags]
      if o.renameErr = 0 then
        ⟨0, { inp.sf_old_i with force_restat := true },
         { inp.sf_new_i with force_restat := true }, path, tr⟩
      else ⟨o.renameErr, inp.sf_old_i, inp.sf_new_i, inp.file_path, tr⟩

/-! ### `sf_symlink` (dirops.c:575) -/

structure SymlinkOracle where
  pathRes : Except Int String
  symAllocOK : Bool
  symlinkErr : Int
  instErr : Int
  deriving Repr

/-- `sf_symlink` (dirops.c:575): build the path, allocate the target
string, issue the symlink call, instantiate the local object, and mark
the parent `force_restat`. -/
def sf_symlink (o : SymlinkOracle) (sf_i : SfInodeInfo) : Int × SfInodeInfo × List Event :=
  match o.pathRes with
  | .error e => (e, sf_i, [])
  | .ok _path =>
    if !o.symAllocOK then (-ENOMEM, sf_i, [])
    else if o.symlinkErr ≠ 0 then (o.symlinkErr, sf_i, [.symlinkCall])
    else if o.instErr ≠ 0 then (o.instErr, sf_i, [.symlinkCall])
    else (0, { sf_i with force_restat := true }, [.symlinkCall])

/-! ### Reference run of the enumeration loop

`iterSpec` is a closed-form reference description of what one
`sf_dir_iterate` call does on a clean session (no pending refetch):
the theorems below prove the embedded loop equal to it and then reason
about it. -/

/-- The accepted triple for the listing entry at absolute ordinal `i`:
its converted name, the synthetic inode number `i + 0xbeef`, and its
translated type. -/
def tupleAt (es : List DirEntry) (i : Nat) : String × Nat × Nat :=
  match es[i]? with
  | some e => (e.name, i + 0xbeef, sf_get_d_type e.mode)
  | none => ("", 0, 0)

/-- Reference run over the flattened listing `es` from ordinal `p`
with `b` output slots: returns the final cursor, the remaining slots,
and the accepted triples in order.  A decodable entry consumes a slot
(stopping first if none is left); an undecodable entry is skipped. -/
def iterSpec (es : List DirEntry) (p b : Nat) : Nat × Nat × List (String × Nat × Nat) :=
  if h : p < es.length then
    if es[p].decodable then
      if b = 0 then (p, 0, [])
      else
        let r := iterSpec es (p + 1) (b - 1)
        (r.1, r.2.1, tupleAt es p :: r.2.2)
    else iterSpec es (p + 1) b
  else (p, b, [])
termination_by es.length - p
decreasing_by all_goals omega

/-- Ordinals in `[p, es.length)` whose entry is decodable. -/
def decPositions (es : List DirEntry) (p : Nat) : List Nat :=
  (List.range' p (es.length - p)).filter fun i =>
    match es[i]? with
    | some e => e.decodable
    | none => false

/-! ### The claim's notion of "is a directory"

Refinement-side definition, following the claim's words rather than
the source: an inode mode denotes a directory when its format bits
equal `S_IFDIR` (the standard `S_ISDIR` test).  The source instead
tests `i_mode & S_IFDIR` (dirops.c:558), to be compared below. -/
def S_ISDIR (m : Nat) : Bool := m &&& S_IFMT == S_IFDIR

/-! ### Concrete fixtures for the closed instantiations below -/

def entA : DirEntry := ⟨"a", true, SHFL_TYPE_FILE⟩
def entB : DirEntry := ⟨"b", true, SHFL_TYPE_DIRECTORY⟩
def entBad : DirEntry := ⟨"bad", false, SHFL_TYPE_FILE⟩

/-- A clean parent inode record (no pending refetch). -/
def siClean : SfInodeInfo := ⟨"dir", false, false⟩
/-- A parent inode record whose listing is marked stale. -/
def siDirty : SfInodeInfo := ⟨"dir", false, true⟩

/-- Two-entry listing, one chunk each. -/
def chunksAB : SfDirInfo := [[entA], [entB]]
/-- Three-entry listing whose middle entry (ordinal 1) is undecodable. -/
def chunksSkip : SfDirInfo := [[entA], [entBad, entB]]

/-- Refetch oracle: reopen succeeds and the re-read yields `[[entA]]`. -/
def oRefOK : RefetchOracle := ⟨⟨0, SHFL_FILE_EXISTS, 7⟩, [.ok [entA], .ok []]⟩
/-- Refetch oracle: the reopen call itself fails with `-Eio`. -/
def oRefFailCreate : RefetchOracle := ⟨⟨-Eio, 0, 0⟩, []⟩
/-- Refetch oracle: reopen succeeds but the first chunk read fails. -/
def oRefFailRead : RefetchOracle := ⟨⟨0, SHFL_FILE_EXISTS, 5⟩, [.error (-Eio)]⟩
/-- Refetch oracle: the host reports the directory gone. -/
def oRefGone : RefetchOracle := ⟨⟨0, SHFL_FILE_NOT_FOUND, SHFL_HANDLE_NIL⟩, []⟩

/-- Successful create-call oracle for `sf_create_aux`. -/
def oCreOK : CreateAuxOracle := ⟨.ok "dir/f", ⟨0, SHFL_FILE_CREATED, 9⟩, 0⟩
/-- Successful rename oracle. -/
def oRenOK : RenameOracle := ⟨.ok "dir/new", 0⟩
/-- Successful unlink oracle. -/
def oUnlOK : UnlinkOracle := ⟨.ok "dir/f", 0⟩
/-- Successful symlink oracle. -/
def oSymOK : SymlinkOracle := ⟨.ok "dir/l", true, 0, 0⟩

/-- Rename request whose source is a regular file, same share, flags 0. -/
def inpRenReg : RenameIn := ⟨0, 1, 1, 0x8000, siClean, siClean, "dir/old"⟩
/-- Rename request whose source is a socket, same share, flags 0. -/
def inpRenSock : RenameIn := ⟨0, 1, 1, S_IFSOCK, siClean, siClean, "dir/old"⟩
/-- Rename request whose source is a directory, same share, flags 0. -/
def inpRenDir : RenameIn := ⟨0, 1, 1, S_IFDIR, siClean, siClean, "dir/old"⟩

/-! ## Theorems -/

/-- The chunk walk of `sf_getdent` finds exactly the `pos`-th entry of
the flattened chunk sequence. -/
theorem sf_entry_at_flatten (bs : List (List DirEntry)) (pos : Nat) :
    sf_entry_at bs pos = bs.flatten[pos]? := by
  induction bs generalizing pos with
  | nil => simp [sf_entry_at]
  | cons b bs ih =>
    rw [sf_entry_at, List.flatten_cons, List.getElem?_append]
    by_cases h : pos < b.length
    · simp [h, List.getElem?_eq_getElem h]
    · simp [h, ih]

/-- Unfolding step: a loop body that returns ends the iteration. -/
theorem sf_dir_iterate_succ_of_ret (w : Nat) (o : RefetchOracle) (n : Nat)
    (st st1 : IterSt) (e : Int)
    (hbody : sf_dir_iterate_body w o st = .ret e st1) :
    sf_dir_iterate w o (n + 1) st = some (e, st1) := by
  rw [sf_dir_iterate, hbody]

/-- Unfolding step: a loop body that continues keeps iterating. -/
theorem sf_dir_iterate_succ_of_next (w : Nat) (o : RefetchOracle) (n : Nat)
    (st st1 : IterSt)
    (hbody : sf_dir_iterate_body w o st = .next st1) :
    sf_dir_iterate w o (n + 1) st = sf_dir_iterate w o n st1 := by
  rw [sf_dir_iterate, hbody]

/-- On a session with no pending refetch, `sf_dir_iterate` terminates
(given enough fuel) and behaves exactly as the reference run
`iterSpec` over the flattened listing: it returns 0, the final
`f_pos` and `ctx.pos` agree with the reference cursor, the budget
agrees, the accepted entries are appended in order, and the inode
record and cache are untouched. -/
theorem sf_dir_iterate_eq_iterSpec (w : Nat) (o : RefetchOracle) (chunks : SfDirInfo)
    (si : SfInodeInfo) (hre : si.force_reread = false)
    (fuel p b : Nat) (E : List (String × Nat × Nat))
    (hw : chunks.flatten.length + 0xbeef ≤ 2 ^ w)
    (hfuel : chunks.flatten.length - p + 1 ≤ fuel) :
    sf_dir_iterate w o fuel ⟨p, ⟨p, b, E⟩, si, some chunks⟩ =
      some (0, ⟨(iterSpec chunks.flatten p b).1,
                ⟨(iterSpec chunks.flatten p b).1,
                 (iterSpec chunks.flatten p b).2.1,
                 E ++ (iterSpec chunks.flatten p b).2.2⟩, si, some chunks⟩) := by
  induction fuel generalizing p b E with
  | zero => omega
  | succ n ih =>
    have hg : sf_getdent o ⟨p, si, some chunks⟩ =
        ⟨sf_getdent_walk chunks p, si, some chunks, []⟩ := by
      simp [sf_getdent, hre]
    rcases hent : sf_entry_at chunks p with _ | e
    · -- cursor past the end: the loop returns 0 at once
      have hlen : chunks.flatten.length ≤ p := by
        have h := sf_entry_at_flatten chunks p
        rw [hent] at h
        exact List.getElem?_eq_none_iff.mp h.symm
      have hbody : sf_dir_iterate_body w o ⟨p, ⟨p, b, E⟩, si, some chunks⟩ =
          .ret 0 ⟨p, ⟨p, b, E⟩, si, some chunks⟩ := by
        simp [sf_dir_iterate_body, hg, sf_getdent_walk, hent]
      rw [sf_dir_iterate_succ_of_ret w o n _ _ _ hbody, iterSpec,
          dif_neg (Nat.not_lt.mpr hlen)]
      simp
    · have hsome : chunks.flatten[p]? = some e := by
        rw [← sf_entry_at_flatten, hent]
      obtain ⟨hp, hval⟩ := List.getElem?_eq_some.mp hsome
      have hmod : (p + 0xbeef) % 2 ^ w = p + 0xbeef :=
        Nat.mod_eq_of_lt (by omega)
      by_cases hdec : e.decodable
      · rcases b with _ | b'
        · -- budget exhausted: the accept callback signals stop
          have hbody : sf_dir_iterate_body w o ⟨p, ⟨p, 0, E⟩, si, some chunks⟩ =
              .ret 0 ⟨p, ⟨p, 0, E⟩, si, some chunks⟩ := by
            simp [sf_dir_iterate_body, hg, sf_getdent_walk, hent, hdec, hmod, dir_emit]
          rw [sf_dir_iterate_succ_of_ret w o n _ _ _ hbody, iterSpec, dif_pos hp]
          simp [hval, hdec]
        · -- entry accepted: advance and continue
          have hbody : sf_dir_iterate_body w o ⟨p, ⟨p, b' + 1, E⟩, si, some chunks⟩ =
              .next ⟨p + 1, ⟨p + 1, b',
                E ++ [(e.name, p + 0xbeef, sf_get_d_type e.mode)]⟩, si, some chunks⟩ := by
            simp [sf_dir_iterate_body, hg, sf_getdent_walk, hent, hdec, hmod, dir_emit]
          rw [sf_dir_iterate_succ_of_next w o n _ _ hbody, iterSpec, dif_pos hp,
              ih (p + 1) b' (E ++ [(e.name, p + 0xbeef, sf_get_d_type e.mode)]) (by omega)]
          simp [hval, hdec, tupleAt, hsome]
      · -- undecodable entry: skipped, cursor advanced
        have hbody : sf_dir_iterate_body w o ⟨p, ⟨p, b, E⟩, si, some chunks⟩ =
            .next ⟨p + 1, ⟨p + 1, b, E⟩, si, some chunks⟩ := by
          simp [sf_dir_iterate_body, hg, sf_getdent_walk, hent, hdec]
        rw [sf_dir_iterate_succ_of_next w o n _ _ hbody, iterSpec, dif_pos hp,
            ih (p + 1) b E (by omega)]
        simp [hval, hdec]

/-- Concatenation of adjacent `range'` segments. -/
theorem range'_append_adj (s m n : Nat) :
    List.range' s m ++ List.range' (s + m) n = List.range' s (m + n) := by
  simp [Nat.add_comm]

/-- Closed form of the reference run on an all-decodable suffix: the
cursor advances by `min b (length - p)` and exactly that many entries
are accepted, in listing order. -/
theorem iterSpec_all_decodable (es : List DirEntry)
    (hdec : ∀ i (h : i < es.length), es[i].decodable) (p b : Nat) (hp : p ≤ es.length) :
    iterSpec es p b = (min (p + b) es.length, b - (es.length - p),
      (List.range' p (min b (es.length - p))).map (tupleAt es)) := by
  suffices H : ∀ n p b, p ≤ es.length → es.length - p = n →
      iterSpec es p b = (min (p + b) es.length, b - (es.length - p),
        (List.range' p (min b (es.length - p))).map (tupleAt es)) by
    exact H (es.length - p) p b hp rfl
  clear hp p b
  intro n
  induction n with
  | zero =>
    intro p b hp hn
    rw [iterSpec, dif_neg (by omega)]
    have h1 : min (p + b) es.length = p := by omega
    rw [hn, h1]
    simp
  | succ n ih =>
    intro p b hp hn
    have hp' : p < es.length := by omega
    rw [iterSpec, dif_pos hp', if_pos (hdec p hp')]
    rcases b with _ | b'
    · have h1 : min (p + 0) es.length = p := by omega
      have h2 : min 0 (es.length - p) = 0 := by omega
      rw [if_pos rfl, h1, h2]
      simp
    · rw [if_neg (by omega : ¬(b' + 1 = 0))]
      simp only [Nat.add_sub_cancel]
      rw [ih (p + 1) b' (by omega) (by omega)]
      have h1 : min (p + 1 + b') es.length = min (p + (b' + 1)) es.length := by omega
      have h2 : b' - (es.length - (p + 1)) = b' + 1 - (es.length - p) := by omega
      have h3 : min (b' + 1) (es.length - p) = min b' (es.length - (p + 1)) + 1 := by omega
      rw [h3, List.range'_succ, List.map_cons]
      simp [h1, h2]

/-- Splitting off the head of the decodable-position list. -/
theorem decPositions_cons (es : List DirEntry) (p : Nat) (hp : p < es.length) :
    decPositions es p =
      (if es[p].decodable then [p] else []) ++ decPositions es (p + 1) := by
  unfold decPositions
  have h : es.length - p = (es.length - (p + 1)) + 1 := by omega
  rw [h, List.range'_succ, List.filter_cons]
  rw [List.getElem?_eq_getElem hp]
  by_cases hd : es[p].decodable
  · simp [hd]
  · simp [hd]

/-- Past the end there are no decodable positions. -/
theorem decPositions_past (es : List DirEntry) (p : Nat) (hp : es.length ≤ p) :
    decPositions es p = [] := by
  unfold decPositions
  have h : es.length - p = 0 := by omega
  rw [h]
  rfl

/-- Closed form of the reference run when the remaining budget covers
every remaining decodable entry: the cursor reaches the end of the
listing and exactly the decodable entries are accepted, in order;
undecodable entries are skipped, not fatal. -/
theorem iterSpec_decPositions (es : List DirEntry) (p b : Nat) (hp : p ≤ es.length)
    (hb : (decPositions es p).length ≤ b) :
    iterSpec es p b = (es.length, b - (decPositions es p).length,
      (decPositions es p).map (tupleAt es)) := by
  suffices H : ∀ n p b, p ≤ es.length → (decPositions es p).length ≤ b →
      es.length - p = n →
      iterSpec es p b = (es.length, b - (decPositions es p).length,
        (decPositions es p).map (tupleAt es)) by
    exact H (es.length - p) p b hp hb rfl
  clear hp hb p b
  intro n
  induction n with
  | zero =>
    intro p b hp hb hn
    have hpe : p = es.length := by omega
    rw [iterSpec, dif_neg (by omega), decPositions_past es p (by omega)]
    simp [hpe]
  | succ n ih =>
    intro p b hp hb hn
    have hp' : p < es.length := by omega
    rw [iterSpec, dif_pos hp']
    by_cases hd : es[p].decodable
    · rw [if_pos hd]
      have hcons : decPositions es p = p :: decPositions es (p + 1) := by
        rw [decPositions_cons es p hp', if_pos hd]
        rfl
      rcases b with _ | b'
      · rw [hcons] at hb
        simp at hb
      · have hb' : (decPositions es (p + 1)).length ≤ b' := by
          rw [hcons] at hb
          simpa using hb
        rw [if_neg (by omega : ¬(b' + 1 = 0))]
        simp only [Nat.add_sub_cancel]
        rw [ih (p + 1) b' (by omega) hb' (by omega), hcons]
        simp
    · rw [if_neg hd]
      have hcons : decPositions es p = decPositions es (p + 1) := by
        rw [decPositions_cons es p hp', if_neg hd]
        rfl
      rw [ih (p + 1) b (by omega) (by rw [← hcons]; exact hb) (by omega), hcons]

/-- Repeated `iterate` calls on an all-decodable listing: however the
budgets chunk the consumption, once they cover the remaining entries
the session emits exactly the entries from the cursor to the end, in
listing order, and the cursor ends at the listing's length. -/
theorem sf_enumerate_all_decodable (w : Nat) (o : RefetchOracle) (chunks : SfDirInfo)
    (si : SfInodeInfo) (hre : si.force_reread = false)
    (hdec : ∀ i (h : i < chunks.flatten.length), (chunks.flatten)[i].decodable)
    (hw : chunks.flatten.length + 0xbeef ≤ 2 ^ w)
    (budgets : List Nat) (p : Nat) (hp : p ≤ chunks.flatten.length)
    (hsum : chunks.flatten.length - p ≤ budgets.sum)
    (fuel : Nat) (hfuel : chunks.flatten.length + 1 ≤ fuel) :
    sf_enumerate w o fuel budgets (p, si, some chunks) =
      some ((List.range' p (chunks.flatten.length - p)).map (tupleAt chunks.flatten),
            (chunks.flatten.length, si, some chunks)) := by
  induction budgets generalizing p with
  | nil =>
    rw [List.sum_nil] at hsum
    have hpe : p = chunks.flatten.length := by omega
    rw [sf_enumerate]
    rw [hpe]
    simp
  | cons b bs ih =>
    rw [List.sum_cons] at hsum
    rw [sf_enumerate,
        sf_dir_iterate_eq_iterSpec w o chunks si hre fuel p b [] hw (by omega),
        iterSpec_all_decodable chunks.flatten hdec p b hp]
    have hsum' : chunks.flatten.length - min (p + b) chunks.flatten.length ≤ bs.sum := by
      omega
    have hih := ih (min (p + b) chunks.flatten.length) (by omega) hsum'
    have h1 : min (p + b) chunks.flatten.length = p + min b (chunks.flatten.length - p) := by
      omega
    have hsplit : List.range' p (min b (chunks.flatten.length - p)) ++
        List.range' (min (p + b) chunks.flatten.length)
          (chunks.flatten.length - min (p + b) chunks.flatten.length) =
        List.range' p (chunks.flatten.length - p) := by
      rw [h1, range'_append_adj]
      congr 1
      omega
    simp [-List.length_flatten, hih, ← List.map_append, hsplit]

/-! ### Claim theorems -/

/-- C9: opening a directory whose file object already has an open
listing (`private_data` non-null) is idempotent: `sf_dir_open` returns
0 immediately, performs no transport call and no allocation (empty
event trace), and leaves the buffered listing untouched. -/
theorem C9_dir_open_idempotent (allocOK : Bool) (o : RefetchOracle) (d : SfDirInfo) :
    sf_dir_open allocOK o (some d) = ⟨0, some d, []⟩ := by
  rfl

/-- C8: a rename with a nonzero generic flags argument, or whose two
endpoints belong to different mounted shares, is rejected with
`-EINVAL` before any remote transport call is issued (the event trace
is empty) and with no local state modified. -/
theorem C8_rename_rejected_early (o : RenameOracle) (inp : RenameIn)
    (h : inp.flags ≠ 0 ∨ inp.old_glob ≠ inp.new_glob) :
    sf_rename o inp = ⟨-EINVAL, inp.sf_old_i, inp.sf_new_i, inp.file_path, []⟩ := by
  rcases h with h | h
  · rw [sf_rename, if_pos h]
  · rw [sf_rename]
    by_cases h0 : inp.flags ≠ 0
    · rw [if_pos h0]
    · rw [if_neg h0, if_pos h]

/-- Witness for C8 at a concrete cross-share rename request. -/
theorem C8_rename_rejected_early_witness :
    ((⟨0, 1, 2, 0x8000, siClean, siClean, "dir/old"⟩ : RenameIn).flags ≠ 0 ∨
      (⟨0, 1, 2, 0x8000, siClean, siClean, "dir/old"⟩ : RenameIn).old_glob ≠
        (⟨0, 1, 2, 0x8000, siClean, siClean, "dir/old"⟩ : RenameIn).new_glob) ∧
    sf_rename oRenOK ⟨0, 1, 2, 0x8000, siClean, siClean, "dir/old"⟩ =
      ⟨-EINVAL, siClean, siClean, "dir/old", []⟩ :=
  ⟨Or.inr (by decide),
   C8_rename_rejected_early oRenOK ⟨0, 1, 2, 0x8000, siClean, siClean, "dir/old"⟩
     (Or.inr (by decide))⟩

/-- C10 counterexample: a rename whose source is a socket
(`i_mode = S_IFSOCK`, not a directory under the standard `S_ISDIR`
test) is nevertheless issued with protocol flags 0 rather than
`SHFL_RENAME_FILE | SHFL_RENAME_REPLACE_IF_EXISTS`, because the source
tests `i_mode & S_IFDIR` and `S_IFSOCK` (0xC000) has the 0x4000 bit
set. -/
theorem C10_socket_gets_dir_flags :
    S_ISDIR S_IFSOCK = false ∧
    (sf_rename oRenOK inpRenSock).trace = [.renameCall "dir/old" "dir/new" 0] ∧
    (0 : Nat) ≠ SHFL_RENAME_FILE ||| SHFL_RENAME_REPLACE_IF_EXISTS := by
  refine ⟨by decide, by decide, by decide⟩

/-- C10 (amended): once the early checks pass and the new path is
built, the remote rename call carries protocol flags 0 exactly when
the source inode's mode has the `S_IFDIR` bit set (which covers every
directory, but also sockets, whose `S_IFSOCK` format value includes
that bit), and `SHFL_RENAME_FILE | SHFL_RENAME_REPLACE_IF_EXISTS`
otherwise; in particular a directory source is never requested as a
replace. -/
theorem C10_rename_protocol_flags (o : RenameOracle) (inp : RenameIn) (path : String)
    (hf : inp.flags = 0) (hg : inp.old_glob = inp.new_glob)
    (hpath : o.pathRes = .ok path) :
    (sf_rename o inp).trace =
      [.renameCall inp.file_path path
        (if inp.old_mode &&& S_IFDIR ≠ 0 then 0
         else SHFL_RENAME_FILE ||| SHFL_RENAME_REPLACE_IF_EXISTS)] ∧
    (S_ISDIR inp.old_mode = true → inp.old_mode &&& S_IFDIR ≠ 0) := by
  constructor
  · rw [sf_rename, if_neg (by omega), if_neg (by omega), hpath]
    by_cases hr : o.renameErr = 0
    · simp [hr]
    · simp [hr]
  · intro hdir
    have hm : inp.old_mode &&& S_IFMT = S_IFDIR := by
      have := of_decide_eq_true hdir
      exact this
    have h1 : S_IFMT &&& S_IFDIR = S_IFDIR := by decide
    have h2 : inp.old_mode &&& S_IFDIR = (inp.old_mode &&& S_IFMT) &&& S_IFDIR := by
      rw [Nat.and_assoc, h1]
    rw [h2, hm]
    decide

/-- Witness for C10's amended statement at a concrete directory
rename. -/
theorem C10_rename_protocol_flags_witness :
    (sf_rename oRenOK inpRenDir).trace =
      [.renameCall inpRenDir.file_path "dir/new"
        (if inpRenDir.old_mode &&& S_IFDIR ≠ 0 then 0
         else SHFL_RENAME_FILE ||| SHFL_RENAME_REPLACE_IF_EXISTS)] ∧
    (S_ISDIR inpRenDir.old_mode = true → inpRenDir.old_mode &&& S_IFDIR ≠ 0) :=
  C10_rename_protocol_flags oRenOK inpRenDir "dir/new" (by decide) (by decide) rfl

/-- C1: the claim requires every content-changing mutation to set the
parent's `needs_listing_refresh` (`force_reread`) flag on success, but
the code sets only `force_restat` in `sf_create`, `sf_mkdir`,
`sf_rename` and `sf_symlink`: starting from a clean parent, each of
these succeeds yet leaves `force_reread` false, whereas `sf_unlink_aux`
(the unlink/rmdir path) does set it. -/
theorem C1_mutations_leave_listing_flag_unset :
    sf_create oCreOK siClean = (0, ⟨"dir", true, false⟩, [.createCall ⟨0, SHFL_FILE_CREATED, 9⟩]) ∧
    sf_mkdir oCreOK siClean =
      (0, ⟨"dir", true, false⟩, [.createCall ⟨0, SHFL_FILE_CREATED, 9⟩, .closeCall 9]) ∧
    sf_rename oRenOK inpRenReg =
      ⟨0, ⟨"dir", true, false⟩, ⟨"dir", true, false⟩, "dir/new",
       [.renameCall "dir/old" "dir/new" (SHFL_RENAME_FILE ||| SHFL_RENAME_REPLACE_IF_EXISTS)]⟩ ∧
    sf_symlink oSymOK siClean = (0, ⟨"dir", true, false⟩, [.symlinkCall]) ∧
    sf_unlink_aux oUnlOK false (some 0x8000) siClean =
      (0, ⟨"dir", true, true⟩, [.removeCall "dir/f" SHFL_REMOVE_FILE]) := by
  refine ⟨by decide, by decide, by decide, by decide, by decide⟩

/-- C4: the claim says a failed refetch is propagated as a fatal error
for the enumeration step with the cursor unadvanced, but
`sf_dir_iterate`'s `default:` branch treats the refetch failure like
an erroneous entry: with `force_reread` set and the reopen failing
with `-Eio`, one pass of the loop body swallows the error, advances
both cursors and continues, and the loop never returns (here: still
running after 5 iterations, cursor pushed from 3 to 8). -/
theorem C4_refetch_failure_swallowed :
    sf_dir_iterate_body 64 oRefFailCreate ⟨3, ⟨3, 7, []⟩, siDirty, some chunksAB⟩ =
      .next ⟨4, ⟨4, 7, []⟩, siDirty, some chunksAB⟩ ∧
    sf_dir_iterate 64 oRefFailCreate 5 ⟨3, ⟨3, 7, []⟩, siDirty, some chunksAB⟩ = none := by
  refine ⟨by decide, by decide⟩

/-- A failed `sf_dir_read_all` exposes no chunks (modelled from the
spec: accumulated chunks are released on a read failure). -/
theorem sf_dir_read_all_fail_empty (rs : List (Except Int (List DirEntry)))
    (h : (sf_dir_read_all rs).1 ≠ 0) : (sf_dir_read_all rs).2.1 = [] := by
  induction rs with
  | nil => simp [sf_dir_read_all] at h
  | cons r rs ih =>
    rcases r with e | chunk
    · simp [sf_dir_read_all]
    · by_cases hc : chunk = []
      · simp [sf_dir_read_all, hc] at h
      · by_cases hr : (sf_dir_read_all rs).1 ≠ 0
        · simp [sf_dir_read_all, hc, hr]
        · simp [sf_dir_read_all, hc, hr] at h

/-- The trace of `sf_dir_read_all` consists only of chunk-read events:
it acquires and closes no handles. -/
theorem sf_dir_read_all_trace_no_handles (rs : List (Except Int (List DirEntry))) :
    acquiredHandles (sf_dir_read_all rs).2.2 = [] ∧
    closedHandles (sf_dir_read_all rs).2.2 = [] := by
  induction rs with
  | nil => simp [sf_dir_read_all, acquiredHandles, closedHandles]
  | cons r rs ih =>
    rcases r with e | chunk
    · simp [sf_dir_read_all, acquiredHandles, closedHandles]
    · by_cases hc : chunk = []
      · simp [sf_dir_read_all, hc, acquiredHandles, closedHandles]
      · by_cases hr : (sf_dir_read_all rs).1 ≠ 0
        all_goals
          simp [sf_dir_read_all, hc, hr, acquiredHandles, closedHandles,
            List.filterMap_cons] at ih ⊢
        all_goals exact ih

/-- C2 counterexample: with a stale flag set, a refetch whose chunk
read fails returns the error, but the previously cached two-entry
listing is *not* left intact — the cache was emptied before the
re-read, so it is left empty (the flag itself stays set, as the claim
says). -/
theorem C2_failed_refetch_destroys_old_listing :
    (sf_getdent oRefFailRead ⟨0, siDirty, some chunksAB⟩).res = .error (-Eio) ∧
    (sf_getdent oRefFailRead ⟨0, siDirty, some chunksAB⟩).sf_d = some [] ∧
    (sf_getdent oRefFailRead ⟨0, siDirty, some chunksAB⟩).sf_d ≠ some chunksAB ∧
    (sf_getdent oRefFailRead ⟨0, siDirty, some chunksAB⟩).sf_i.force_reread = true := by
  refine ⟨by decide, by decide, by decide, by decide⟩

/-- C2 (amended): on a flag-triggered refetch, the error of any failed
step is returned to the caller and the flag is cleared only on
success; but the previously cached listing survives only when the
reopen call itself fails — a missing-directory result frees the cache,
and a chunk-read failure leaves the cache empty, the old chunk
sequence having been discarded before the new one was read. -/
theorem C2_refetch_failure_behavior (o : RefetchOracle) (p : Nat) (si : SfInodeInfo)
    (d : SfDirInfo) (hre : si.force_reread = true) :
    (o.create.err ≠ 0 →
      sf_getdent o ⟨p, si, some d⟩ =
        ⟨.error o.create.err, si, some d, [.createCall o.create]⟩) ∧
    (o.create.err = 0 → o.create.result ≠ SHFL_FILE_EXISTS →
      sf_getdent o ⟨p, si, some d⟩ =
        ⟨.error (-ENOENT), si, none, [.createCall o.create]⟩) ∧
    (o.create.err = 0 → o.create.result = SHFL_FILE_EXISTS →
        (sf_dir_read_all o.reads).1 ≠ 0 →
      sf_getdent o ⟨p, si, some d⟩ =
        ⟨.error (sf_dir_read_all o.reads).1, si, some (sf_dir_read_all o.reads).2.1,
         .createCall o.create :: (sf_dir_read_all o.reads).2.2 ++
           [.closeCall o.create.handle]⟩ ∧
      (sf_dir_read_all o.reads).2.1 = []) ∧
    (o.create.err = 0 → o.create.result = SHFL_FILE_EXISTS →
        (sf_dir_read_all o.reads).1 = 0 →
      sf_getdent o ⟨p, si, some d⟩ =
        ⟨sf_getdent_walk (sf_dir_read_all o.reads).2.1 p,
         { si with force_reread := false }, some (sf_dir_read_all o.reads).2.1,
         .createCall o.create :: (sf_dir_read_all o.reads).2.2 ++
           [.closeCall o.create.handle]⟩) := by
  refine ⟨fun h1 => ?_, fun h1 h2 => ?_, fun h1 h2 h3 => ⟨?_, ?_⟩, fun h1 h2 h3 => ?_⟩
  · simp [sf_getdent, hre, h1]
  · simp [sf_getdent, hre, h1, h2]
  · simp [sf_getdent, hre, h1, h2, h3]
  · exact sf_dir_read_all_fail_empty o.reads h3
  · simp [sf_getdent, hre, h1, h2, h3]

/-- Witness for C2's amended statement: the concrete failed-read
refetch, where the returned cache is empty. -/
theorem C2_refetch_failure_behavior_witness :
    (sf_getdent oRefFailRead ⟨0, siDirty, some chunksAB⟩ =
      ⟨.error (sf_dir_read_all oRefFailRead.reads).1, siDirty,
       some (sf_dir_read_all oRefFailRead.reads).2.1,
       .createCall oRefFailRead.create :: (sf_dir_read_all oRefFailRead.reads).2.2 ++
         [.closeCall oRefFailRead.create.handle]⟩ ∧
    (sf_dir_read_all oRefFailRead.reads).2.1 = []) :=
  (C2_refetch_failure_behavior oRefFailRead 0 siDirty chunksAB rfl).2.2.1
    (by decide) (by decide) (by decide)

theorem acquiredHandles_append (a b : List Event) :
    acquiredHandles (a ++ b) = acquiredHandles a ++ acquiredHandles b := by
  simp [acquiredHandles]

theorem closedHandles_append (a b : List Event) :
    closedHandles (a ++ b) = closedHandles a ++ closedHandles b := by
  simp [closedHandles]

theorem acquiredHandles_nil : acquiredHandles [] = [] := rfl

theorem closedHandles_nil : closedHandles [] = [] := rfl

theorem acquiredHandles_cons (e : Event) (tr : List Event) :
    acquiredHandles (e :: tr) =
      (match e with
       | .createCall c =>
         if c.err = 0 ∧ c.handle ≠ SHFL_HANDLE_NIL then [c.handle] else []
       | _ => []) ++ acquiredHandles tr := by
  cases e with
  | createCall c =>
    by_cases hc : c.err = 0 ∧ c.handle ≠ SHFL_HANDLE_NIL
    · simp [acquiredHandles, List.filterMap_cons, hc]
    · simp [acquiredHandles, List.filterMap_cons, hc]
  | allocDirInfo => simp [acquiredHandles, List.filterMap_cons]
  | closeCall h => simp [acquiredHandles, List.filterMap_cons]
  | readChunkCall => simp [acquiredHandles, List.filterMap_cons]
  | renameCall a b c => simp [acquiredHandles, List.filterMap_cons]
  | removeCall a b => simp [acquiredHandles, List.filterMap_cons]
  | symlinkCall => simp [acquiredHandles, List.filterMap_cons]

theorem closedHandles_cons (e : Event) (tr : List Event) :
    closedHandles (e :: tr) =
      (match e with | .closeCall h => [h] | _ => []) ++ closedHandles tr := by
  cases e with
  | createCall c => simp [closedHandles, List.filterMap_cons]
  | allocDirInfo => simp [closedHandles, List.filterMap_cons]
  | closeCall h => simp [closedHandles, List.filterMap_cons]
  | readChunkCall => simp [closedHandles, List.filterMap_cons]
  | renameCall a b c => simp [closedHandles, List.filterMap_cons]
  | removeCall a b => simp [closedHandles, List.filterMap_cons]
  | symlinkCall => simp [closedHandles, List.filterMap_cons]

/-- C3: in `sf_dir_open` and in the refetch path of `sf_getdent`,
every remote handle acquired by the open call (a successful
`vboxsf_create` returning a non-`SHFL_HANDLE_NIL` handle) is passed to
`vboxsf_close` before the function returns, on success and failure
paths alike, so no remote handle is leaked.  The hypothesis states the
protocol guarantee that an open with `SHFL_CF_ACT_OPEN_IF_EXISTS |
SHFL_CF_ACT_FAIL_IF_NEW` hands out a handle only when it reports
`SHFL_FILE_EXISTS`. -/
theorem C3_acquired_handles_closed (allocOK : Bool) (o : RefetchOracle)
    (pd : Option SfDirInfo) (inp : GetdentIn)
    (hnil : o.create.result ≠ SHFL_FILE_EXISTS → o.create.handle = SHFL_HANDLE_NIL) :
    (∀ h ∈ acquiredHandles (sf_dir_open allocOK o pd).trace,
       h ∈ closedHandles (sf_dir_open allocOK o pd).trace) ∧
    (∀ h ∈ acquiredHandles (sf_getdent o inp).trace,
       h ∈ closedHandles (sf_getdent o inp).trace) := by
  obtain ⟨hra, hrc⟩ := sf_dir_read_all_trace_no_handles o.reads
  constructor
  · rcases pd with _ | d
    · by_cases hA : allocOK
      · by_cases he : o.create.err = 0
        · by_cases hres : o.create.result = SHFL_FILE_EXISTS
          · by_cases hread : (sf_dir_read_all o.reads).1 = 0
            all_goals
              intro h hm
              by_cases hN : o.create.handle = SHFL_HANDLE_NIL
              all_goals
                simp [sf_dir_open, hA, he, hres, hread, hN, acquiredHandles_cons,
                  closedHandles_cons, acquiredHandles_append, closedHandles_append,
                  hra, hrc, acquiredHandles_nil, closedHandles_nil] at hm ⊢
              exact hm
          · intro h hm
            by_cases hN : o.create.handle = SHFL_HANDLE_NIL
            all_goals
              simp [sf_dir_open, hA, he, hres, hN, acquiredHandles_cons,
                closedHandles_cons, acquiredHandles_nil, closedHandles_nil] at hm ⊢
            exact hm
        · intro h hm
          simp [sf_dir_open, hA, he, acquiredHandles_cons, acquiredHandles_nil] at hm
      · intro h hm
        simp [sf_dir_open, hA, acquiredHandles_cons, acquiredHandles_nil] at hm
    · intro h hm
      simp [sf_dir_open, acquiredHandles] at hm
  · rcases inp with ⟨p, si, sd⟩
    rcases sd with _ | d
    · intro h hm
      simp [sf_getdent, acquiredHandles] at hm
    · by_cases hre : si.force_reread
      · by_cases he : o.create.err = 0
        · by_cases hres : o.create.result = SHFL_FILE_EXISTS
          · by_cases hread : (sf_dir_read_all o.reads).1 = 0
            all_goals
              intro h hm
              by_cases hN : o.create.handle = SHFL_HANDLE_NIL
              all_goals
                simp [sf_getdent, hre, he, hres, hread, hN, acquiredHandles_cons,
                  closedHandles_cons, acquiredHandles_append, closedHandles_append,
                  hra, hrc, acquiredHandles_nil, closedHandles_nil] at hm ⊢
              exact hm
          · intro h hm
            have hh := hnil hres
            simp [sf_getdent, hre, he, hres, hh, acquiredHandles_cons,
              acquiredHandles_nil] at hm
        · intro h hm
          simp [sf_getdent, hre, he, acquiredHandles_cons, acquiredHandles_nil] at hm
      · intro h hm
        simp [sf_getdent, hre, acquiredHandles] at hm

/-- Witness for C3 at a concrete successful open/refetch oracle. -/
theorem C3_acquired_handles_closed_witness :
    (oRefOK.create.result ≠ SHFL_FILE_EXISTS → oRefOK.create.handle = SHFL_HANDLE_NIL) ∧
    ((∀ h ∈ acquiredHandles (sf_dir_open true oRefOK none).trace,
        h ∈ closedHandles (sf_dir_open true oRefOK none).trace) ∧
     (∀ h ∈ acquiredHandles (sf_getdent oRefOK ⟨0, siDirty, some chunksAB⟩).trace,
        h ∈ closedHandles (sf_getdent oRefOK ⟨0, siDirty, some chunksAB⟩).trace)) :=
  ⟨fun h => absurd rfl h,
   C3_acquired_handles_closed true oRefOK none ⟨0, siDirty, some chunksAB⟩
     (fun h => absurd rfl h)⟩

/-- C7: on an enumeration step serving a decodable entry at cursor
`c`, if the synthetic id `c + 0xbeef`, narrowed to the platform's
`ino_t` width `w`, does not round-trip, the step returns `-EINVAL`
before invoking the accept callback (emitted list and budget
untouched) and without advancing the cursor; if it does round-trip,
the entry is emitted with exactly that id. -/
theorem C7_identity_overflow (w : Nat) (o : RefetchOracle) (chunks : SfDirInfo)
    (si : SfInodeInfo) (c b : Nat) (E : List (String × Nat × Nat)) (e : DirEntry)
    (hre : si.force_reread = false)
    (hent : sf_entry_at chunks c = some e) (hdec : e.decodable = true) :
    ((c + 0xbeef) % 2 ^ w ≠ c + 0xbeef →
      sf_dir_iterate_body w o ⟨c, ⟨c, b, E⟩, si, some chunks⟩ =
        .ret (-EINVAL) ⟨c, ⟨c, b, E⟩, si, some chunks⟩) ∧
    ((c + 0xbeef) % 2 ^ w = c + 0xbeef → 1 ≤ b →
      sf_dir_iterate_body w o ⟨c, ⟨c, b, E⟩, si, some chunks⟩ =
        .next ⟨c + 1, ⟨c + 1, b - 1, E ++ [(e.name, c + 0xbeef, sf_get_d_type e.mode)]⟩,
          si, some chunks⟩) := by
  have hg : sf_getdent o ⟨c, si, some chunks⟩ =
      ⟨.entry e.name (sf_get_d_type e.mode), si, some chunks, []⟩ := by
    simp [sf_getdent, hre, sf_getdent_walk, hent, hdec]
  have hle : (c + 0xbeef) % 2 ^ w ≤ c + 0xbeef := Nat.mod_le _ _
  constructor
  · intro hov
    simp only [sf_dir_iterate_body, hg]
    rw [if_pos (by omega : ¬(c + 0xbeef - (c + 0xbeef) % 2 ^ w = 0))]
  · intro hrt hb
    obtain ⟨b', rfl⟩ : ∃ b', b = b' + 1 := ⟨b - 1, by omega⟩
    simp only [sf_dir_iterate_body, hg]
    rw [if_neg (by omega : ¬¬(c + 0xbeef - (c + 0xbeef) % 2 ^ w = 0))]
    simp [dir_emit, hrt]

/-- Witness for C7: on an 8-bit id width the synthetic id of the entry
at cursor 0 does not round-trip (0xbeef exceeds 8 bits) and the step
fails with `-EINVAL` in place; on a 16-bit width it round-trips and
the entry is emitted with it. -/
theorem C7_identity_overflow_witness :
    ((0 + 0xbeef) % 2 ^ 8 ≠ 0 + 0xbeef ∧
     sf_dir_iterate_body 8 oRefOK ⟨0, ⟨0, 4, []⟩, siClean, some chunksAB⟩ =
       .ret (-EINVAL) ⟨0, ⟨0, 4, []⟩, siClean, some chunksAB⟩) ∧
    ((0 + 0xbeef) % 2 ^ 16 = 0 + 0xbeef ∧
     sf_dir_iterate_body 16 oRefOK ⟨0, ⟨0, 4, []⟩, siClean, some chunksAB⟩ =
       .next ⟨0 + 1, ⟨0 + 1, 4 - 1, [] ++ [(entA.name, 0 + 0xbeef, sf_get_d_type entA.mode)]⟩,
         siClean, some chunksAB⟩) :=
  ⟨⟨by decide,
    (C7_identity_overflow 8 oRefOK chunksAB siClean 0 4 [] entA rfl (by decide) rfl).1
      (by decide)⟩,
   ⟨by decide,
    (C7_identity_overflow 16 oRefOK chunksAB siClean 0 4 [] entA rfl (by decide) rfl).2
      (by decide) (by decide)⟩⟩

/-- C5: for a directory of `N` well-formed (decodable) entries with no
pending refetch, (1) enumerating via repeated `iterate` calls whose
budgets chunk the consumption in any way covering `N` emits exactly
the `N` entries in listing order; (2) a call whose budget `b` runs out
mid-listing halts at cursor `b`, having emitted exactly the first `b`
entries, without advancing past the stopped entry; and (3) that same
entry is the first one emitted by the next call. -/
theorem C5_chunked_enumeration (w : Nat) (o : RefetchOracle) (chunks : SfDirInfo)
    (si : SfInodeInfo) (N : Nat) (budgets : List Nat)
    (hre : si.force_reread = false)
    (hN : chunks.flatten.length = N)
    (hdec : ∀ i (h : i < chunks.flatten.length), (chunks.flatten)[i].decodable = true)
    (hw : N + 0xbeef ≤ 2 ^ w)
    (hb : ∀ b ∈ budgets, 1 ≤ b ∧ b ≤ N)
    (hsum : N ≤ budgets.sum) :
    sf_enumerate w o (N + 1) budgets (0, si, some chunks) =
      some ((List.range' 0 N).map (tupleAt chunks.flatten), (N, si, some chunks)) ∧
    (∀ b, b < N →
      sf_dir_iterate w o (N + 1) ⟨0, ⟨0, b, []⟩, si, some chunks⟩ =
        some (0, ⟨b, ⟨b, 0, (List.range' 0 b).map (tupleAt chunks.flatten)⟩,
          si, some chunks⟩)) ∧
    (∀ b b', b < N → 1 ≤ b' →
      ∃ st, sf_dir_iterate w o (N + 1) ⟨b, ⟨b, b', []⟩, si, some chunks⟩ = some (0, st) ∧
        st.ctx.emitted.head? = some (tupleAt chunks.flatten b)) := by
  subst hN
  refine ⟨?_, ?_, ?_⟩
  · have h := sf_enumerate_all_decodable w o chunks si hre hdec hw budgets 0
      (by omega) (by omega) (chunks.flatten.length + 1) (by omega)
    simpa using h
  · intro b hbN
    rw [sf_dir_iterate_eq_iterSpec w o chunks si hre (chunks.flatten.length + 1) 0 b [] hw
        (by omega),
      iterSpec_all_decodable chunks.flatten hdec 0 b (by omega)]
    simp [-List.length_flatten,
      (by omega : min b chunks.flatten.length = b),
      (by omega : b - chunks.flatten.length = 0)]
  · intro b b' hbN hb1
    have hsim := sf_dir_iterate_eq_iterSpec w o chunks si hre
      (chunks.flatten.length + 1) b b' [] hw (by omega)
    rw [iterSpec_all_decodable chunks.flatten hdec b b' (by omega)] at hsim
    refine ⟨_, hsim, ?_⟩
    have hk : min b' (chunks.flatten.length - b) =
        (min b' (chunks.flatten.length - b) - 1) + 1 := by omega
    simp only [List.nil_append]
    rw [hk, List.range'_succ, List.map_cons]
    rfl

/-- Witness for C5 on the concrete two-entry listing consumed one
entry per call. -/
theorem C5_chunked_enumeration_witness :
    sf_enumerate 64 oRefOK (2 + 1) [1, 1] (0, siClean, some chunksAB) =
      some ((List.range' 0 2).map (tupleAt chunksAB.flatten), (2, siClean, some chunksAB)) :=
  (C5_chunked_enumeration 64 oRefOK chunksAB siClean 2 [1, 1] rfl (by decide) (by decide)
    (by decide) (by decide) (by decide)).1

/-- Below `k` everything stays; the filter only drops `k`. -/
theorem filter_range'_ne_of_lt (s n k : Nat) (h : k < s) :
    (List.range' s n).filter (fun i => decide (i ≠ k)) = List.range' s n := by
  apply List.filter_eq_self.mpr
  intro x hx
  have hm := List.mem_range'_1.mp hx
  simp
  omega

/-- Dropping the single ordinal `k` from `range' s n` loses exactly
one element. -/
theorem length_filter_range'_ne (s n k : Nat) (h1 : s ≤ k) (h2 : k < s + n) :
    ((List.range' s n).filter (fun i => decide (i ≠ k))).length = n - 1 := by
  induction n generalizing s with
  | zero => omega
  | succ n ih =>
    rw [List.range'_succ, List.filter_cons]
    by_cases hs : s = k
    · subst hs
      rw [if_neg (by simp), filter_range'_ne_of_lt (s + 1) n s (by omega),
        List.length_range']
      omega
    · rw [if_pos (by simp [hs]), List.length_cons, ih (s + 1) (by omega) (by omega)]
      omega

/-- With a single undecodable entry at ordinal `k` in a `k+2`-entry
listing, the decodable positions are all ordinals except `k`: exactly
`k+1` of them. -/
theorem decPositions_single_bad (es : List DirEntry) (k : Nat)
    (hlen : es.length = k + 2)
    (hk : ∀ (h : k < es.length), es[k].decodable = false)
    (hothers : ∀ i (h : i < es.length), i ≠ k → es[i].decodable = true) :
    decPositions es 0 = (List.range' 0 (k + 2)).filter (fun i => decide (i ≠ k)) ∧
    (decPositions es 0).length = k + 1 := by
  have h1 : decPositions es 0 = (List.range' 0 (k + 2)).filter (fun i => decide (i ≠ k)) := by
    unfold decPositions
    rw [Nat.sub_zero, hlen]
    apply List.filter_congr
    intro i hi
    have hi2 := List.mem_range'_1.mp hi
    have hilt : i < es.length := by omega
    rw [List.getElem?_eq_getElem hilt]
    by_cases hik : i = k
    · subst hik
      simp [hk hilt]
    · simp [hothers i hilt hik, hik]
  refine ⟨h1, ?_⟩
  rw [h1, length_filter_range'_ne 0 (k + 2) k (by omega) (by omega)]
  omega

/-- C6: enumerating a `k+2`-entry directory whose single entry at
ordinal `k` has an undecodable name does not abort: the step loop
skips that entry (advancing the cursor past it) and accepts exactly
the `k+1` well-formed entries, finishing cleanly at the end of the
listing. -/
theorem C6_undecodable_entry_skipped (w : Nat) (o : RefetchOracle) (chunks : SfDirInfo)
    (si : SfInodeInfo) (k b : Nat)
    (hre : si.force_reread = false)
    (hlen : chunks.flatten.length = k + 2)
    (hk : ∀ (h : k < chunks.flatten.length), (chunks.flatten)[k].decodable = false)
    (hothers : ∀ i (h : i < chunks.flatten.length),
      i ≠ k → (chunks.flatten)[i].decodable = true)
    (hw : k + 2 + 0xbeef ≤ 2 ^ w) (hb : k + 1 ≤ b) :
    sf_dir_iterate w o (k + 3) ⟨0, ⟨0, b, []⟩, si, some chunks⟩ =
      some (0, ⟨k + 2, ⟨k + 2, b - (k + 1),
        (decPositions chunks.flatten 0).map (tupleAt chunks.flatten)⟩,
        si, some chunks⟩) ∧
    ((decPositions chunks.flatten 0).map (tupleAt chunks.flatten)).length = k + 1 := by
  obtain ⟨hdp, hdl⟩ := decPositions_single_bad chunks.flatten k hlen hk hothers
  have hsim := sf_dir_iterate_eq_iterSpec w o chunks si hre (k + 3) 0 b []
    (by omega) (by omega)
  rw [iterSpec_decPositions chunks.flatten 0 b (by omega) (by omega)] at hsim
  constructor
  · rw [hsim]
    simp [hlen, hdl]
  · rw [List.length_map]
    exact hdl

/-- Witness for C6 on the concrete three-entry listing whose middle
entry is undecodable. -/
theorem C6_undecodable_entry_skipped_witness :
    sf_dir_iterate 64 oRefOK (1 + 3) ⟨0, ⟨0, 2, []⟩, siClean, some chunksSkip⟩ =
      some (0, ⟨1 + 2, ⟨1 + 2, 2 - (1 + 1),
        (decPositions chunksSkip.flatten 0).map (tupleAt chunksSkip.flatten)⟩,
        siClean, some chunksSkip⟩) ∧
    ((decPositions chunksSkip.flatten 0).map (tupleAt chunksSkip.flatten)).length = 1 + 1 :=
  C6_undecodable_entry_skipped 64 oRefOK chunksSkip siClean 1 2 rfl (by decide) (by decide)
    (by decide) (by decide) (by decide)

end VBoxSF
